import Mathlib

/-!
Verification of the zendfi-blog content pipeline against its design notes.

The development embeds, as pure Lean functions:
* the Markdown content loader getAllArticles and the renderer
  getArticleBySlug of lib/markdown.ts, with the filesystem modelled as an
  optional association list of file names to file contents and the external
  libraries (gray-matter, the unified remark/rehype pipeline) modelled as
  explicit function parameters that return an error exactly where the
  library call would throw;
* the client-side search filter of components/ArticleList.tsx;
* the URL structure of the generated sitemap of app/sitemap.ts.
-/

namespace ZendfiBlog

/-- Lexicographic comparison of character lists; models the JavaScript
string comparison operator as used on the article date strings. -/
def lexLt : List Char → List Char → Bool
  | _, [] => false
  | [], _ :: _ => true
  | c :: cs, d :: ds => if c = d then lexLt cs ds else decide (c < d)

/-- Models the JavaScript expression a < b on strings. -/
def strLt (a b : String) : Bool := lexLt a.toList b.toList

/-- Models JavaScript String.prototype.toLowerCase character by character
(the metadata of this site is ASCII, where the two coincide). -/
def lowerChars (s : String) : List Char := s.toList.map Char.toLower

/-- Whether the second list occurs at the head of the first. -/
def startsWithList : List Char → List Char → Bool
  | _, [] => true
  | [], _ :: _ => false
  | c :: cs, d :: ds => decide (c = d) && startsWithList cs ds

/-- Whether the second list occurs as a contiguous run inside the first;
models JavaScript String.prototype.includes. -/
def containsSub : List Char → List Char → Bool
  | [], pat => pat.isEmpty
  | c :: cs, pat => startsWithList (c :: cs) pat || containsSub cs pat

/-- Case-insensitive substring test; models
hay.toLowerCase().includes(q.toLowerCase()). -/
def includesIC (hay q : String) : Bool :=
  containsSub (lowerChars hay) (lowerChars q)

/-- Front-matter fields read from a Markdown file by gray-matter; the
optional fields are the ones the Article interface marks optional. -/
structure FrontMatter where
  title : String
  author : String
  date : String
  description : String
  tags : Option (List String)
  category : Option String
  image : Option String
deriving DecidableEq

/-- Result of a successful gray-matter parse: front-matter data plus the
Markdown body. -/
structure MatterResult where
  data : FrontMatter
  content : String
deriving DecidableEq

/-- The list-view record returned by getAllArticles, that is
Omit<Article, 'content'> in lib/markdown.ts. -/
structure ArticleSummary where
  slug : String
  title : String
  author : String
  date : String
  description : String
  tags : Option (List String)
  category : Option String
  image : Option String
deriving DecidableEq

/-- The detail record returned by getArticleBySlug, with the rendered
HTML body. -/
structure Article where
  slug : String
  title : String
  author : String
  date : String
  description : String
  tags : Option (List String)
  category : Option String
  image : Option String
  content : String
deriving DecidableEq

instance {ε α : Type} [DecidableEq ε] [DecidableEq α] : DecidableEq (Except ε α) :=
  fun a b =>
    match a, b with
    | .ok x, .ok y =>
      if h : x = y then isTrue (congrArg Except.ok h)
      else isFalse (fun he => h (Except.ok.inj he))
    | .error x, .error y =>
      if h : x = y then isTrue (congrArg Except.error h)
      else isFalse (fun he => h (Except.error.inj he))
    | .ok _, .error _ => isFalse Except.noConfusion
    | .error _, .ok _ => isFalse Except.noConfusion

/-- Models the JavaScript expression data.image || undefined on
string-or-undefined values: the falsy cases are undefined and the empty
string, both of which become undefined. -/
def jsOrUndefined : Option String → Option String
  | some s => if s = "" then none else some s
  | none => none

/-- Models name.endsWith(".md"). -/
def isMdName (s : String) : Bool :=
  s.toList.reverse.take 3 == ['d', 'm', '.']

/-- Models name.replace(/\.md$/, ""). -/
def stripMd (s : String) : String :=
  if isMdName s then String.mk (s.toList.reverse.drop 3).reverse else s

/-- The summary record built for one file inside getAllArticles. -/
def mkSummary (slug : String) (d : FrontMatter) : ArticleSummary :=
  { slug := slug, title := d.title, author := d.author, date := d.date,
    description := d.description, tags := d.tags, category := d.category,
    image := jsOrUndefined d.image }

/-- The order imposed by allArticles.sort((a, b) => (a.date < b.date ? 1 : -1)):
a is placed before b exactly when the comparator is negative, that is when
a.date < b.date is false. -/
def byDateDesc (a b : ArticleSummary) : Prop := strLt a.date b.date = false

instance : DecidableRel byDateDesc := fun a b =>
  inferInstanceAs (Decidable (strLt a.date b.date = false))

/-- Left-to-right traversal of fileNames.filter(...).map(...) inside
getAllArticles; a gray-matter exception in any file aborts the whole
listing, since the source wraps no try/catch around the map. -/
def loadSummaries (matter : String → Except Unit MatterResult) :
    List (String × String) → Except Unit (List ArticleSummary)
  | [] => .ok []
  | f :: fs =>
    match matter f.2 with
    | .error _ => .error ()
    | .ok m =>
      match loadSummaries matter fs with
      | .error _ => .error ()
      | .ok rest => .ok (mkSummary (stripMd f.1) m.data :: rest)

/-- getAllArticles of lib/markdown.ts. The directory is an optional
association list of file names to file contents, none modelling a missing
articles directory; matter models the gray-matter parser. -/
def getAllArticles (matter : String → Except Unit MatterResult)
    (dir : Option (List (String × String))) : Except Unit (List ArticleSummary) :=
  match dir with
  | none => .ok []
  | some files =>
    match loadSummaries matter (files.filter (fun f => isMdName f.1)) with
    | .error _ => .error ()
    | .ok arts => .ok (List.insertionSort byDateDesc arts)

/-- Content of the named file, when the directory and the file exist. -/
def lookupFile (dir : Option (List (String × String))) (name : String) :
    Option String :=
  match dir with
  | none => none
  | some files =>
    match files.find? (fun f => f.1 == name) with
    | some f => some f.2
    | none => none

/-- The article record built at the end of getArticleBySlug. -/
def mkArticle (slug : String) (m : MatterResult) (html : String) : Article :=
  { slug := slug, title := m.data.title, author := m.data.author,
    date := m.data.date, description := m.data.description,
    tags := m.data.tags, category := m.data.category,
    image := jsOrUndefined m.data.image, content := html }

/-- getArticleBySlug of lib/markdown.ts: read slug.md, parse the front
matter, render the body through the unified pipeline (modelled by the
render parameter); the surrounding try/catch maps every failure, a missing
file included, to null. -/
def getArticleBySlug (matter : String → Except Unit MatterResult)
    (render : String → Except Unit String)
    (dir : Option (List (String × String))) (slug : String) : Option Article :=
  match lookupFile dir (slug ++ ".md") with
  | none => none
  | some contents =>
    match matter contents with
    | .error _ => none
    | .ok m =>
      match render m.content with
      | .error _ => none
      | .ok html => some (mkArticle slug m html)

/-- matchesSearch of components/ArticleList.tsx: case-insensitive substring
match of the search string against title, description, or some tag. -/
def matchesSearch (a : ArticleSummary) (search : String) : Bool :=
  includesIC a.title search || includesIC a.description search ||
    (match a.tags with
     | some ts => ts.any (fun t => includesIC t search)
     | none => false)

/-- matchesTag of components/ArticleList.tsx: a non-empty selectedTag is
required to occur literally among the article tags. -/
def matchesTag (a : ArticleSummary) (selectedTag : String) : Bool :=
  if selectedTag = "" then true
  else
    match a.tags with
    | some ts => ts.contains selectedTag
    | none => false

/-- matchesCategory of components/ArticleList.tsx. -/
def matchesCategory (a : ArticleSummary) (selectedCategory : String) : Bool :=
  if selectedCategory = "" then true
  else a.category == some selectedCategory

/-- The filter of the ArticleList component rendered by app/page.tsx. -/
def filterArticles (articles : List ArticleSummary)
    (search selectedTag selectedCategory : String) : List ArticleSummary :=
  articles.filter (fun a =>
    matchesSearch a search && matchesTag a selectedTag &&
      matchesCategory a selectedCategory)

/-- The tag list of an article, empty when the field is absent. -/
def tagsOf (a : ArticleSummary) : List String := a.tags.getD []

/-- The filter membership predicate exactly as the specification words it:
the query must occur case-insensitively in the title, the description or
some tag, the tag selector constrains the article only when it is non-empty
and not the All value, and likewise the category selector. -/
def specC1Pred (a : ArticleSummary) (q tag cat : String) : Prop :=
  (includesIC a.title q = true ∨ includesIC a.description q = true ∨
    ∃ t ∈ tagsOf a, includesIC t q = true) ∧
  (tag ≠ "" → tag ≠ "All Tags" → tag ∈ tagsOf a) ∧
  (cat ≠ "" → cat ≠ "All Categories" → a.category = some cat)

instance (a : ArticleSummary) (q tag cat : String) :
    Decidable (specC1Pred a q tag cat) := by
  unfold specC1Pred; infer_instance

/-- The amended filter membership predicate: identical to the claim except
that every non-empty tag or category selector constrains the article, the
literal All values included; the filter modal passes the empty string for
the All choices, so only the empty selector disables the constraint. -/
def matchesAmended (a : ArticleSummary) (q tag cat : String) : Prop :=
  (includesIC a.title q = true ∨ includesIC a.description q = true ∨
    ∃ t ∈ tagsOf a, includesIC t q = true) ∧
  (tag ≠ "" → tag ∈ tagsOf a) ∧
  (cat ≠ "" → a.category = some cat)

instance (a : ArticleSummary) (q tag cat : String) :
    Decidable (matchesAmended a q tag cat) := by
  unfold matchesAmended; infer_instance

/-- One step of author.toLowerCase().replace(/\s+/g, "-"): the flag records
whether the previous character belonged to a whitespace run that has
already produced its hyphen. -/
def replaceWsRunsAux : Bool → List Char → List Char
  | _, [] => []
  | prevWs, c :: cs =>
    if c.isWhitespace then
      if prevWs then replaceWsRunsAux true cs
      else '-' :: replaceWsRunsAux true cs
    else c :: replaceWsRunsAux false cs

/-- The author slug of app/sitemap.ts: the author name lowercased, with
every whitespace run replaced by a single hyphen. -/
def authorSlug (author : String) : String :=
  String.mk (replaceWsRunsAux false (author.toList.map Char.toLower))

/-- The base URL constant of app/sitemap.ts. -/
def baseUrl : String := "https://blog.zendfi.tech"

/-- The sitemap URL of one article page. -/
def articleUrl (a : ArticleSummary) : String :=
  baseUrl ++ "/article/" ++ a.slug

/-- The sitemap URL of one author page. -/
def authorUrl (a : ArticleSummary) : String :=
  baseUrl ++ "/author/" ++ authorSlug a.author

/-- First-occurrence deduplication; models building the JavaScript Map
keyed by page URL and taking its values, which keeps one entry per distinct
key in first-insertion order. -/
def dedupFirst : List String → List String
  | [] => []
  | u :: us => u :: dedupFirst (us.filter (fun v => !(v == u)))
termination_by l => l.length
decreasing_by simpa using Nat.lt_succ_of_le (List.length_filter_le _ _)

/-- The URLs of the sitemap of app/sitemap.ts, in order: the static home
page, one entry per article, then the author pages deduplicated by URL.
The lastModified, changeFrequency and priority fields say nothing about
which entries exist and are not modelled. -/
def sitemapUrls (articles : List ArticleSummary) : List String :=
  [baseUrl] ++ articles.map articleUrl ++ dedupFirst (articles.map authorUrl)

/-- Front matter of the January demo article. -/
def demoData1 : FrontMatter :=
  { title := "January post", author := "Ada Lovelace", date := "2025-01-01",
    description := "first", tags := none, category := none, image := none }

/-- Front matter of the June demo article. -/
def demoData2 : FrontMatter :=
  { title := "June post", author := "Ada Lovelace", date := "2025-06-01",
    description := "second", tags := none, category := none, image := none }

/-- Demo gray-matter model: the contents "A" and "B" parse, everything
else throws. -/
def demoMatter : String → Except Unit MatterResult := fun c =>
  if c = "A" then .ok { data := demoData1, content := "body one" }
  else if c = "B" then .ok { data := demoData2, content := "body two" }
  else .error ()

/-- Demo rendering pipeline: wraps the body in a paragraph element. -/
def demoRender : String → Except Unit String := fun s =>
  .ok ("<p>" ++ s ++ "</p>")

/-- A demo content directory with a January and a June article. -/
def demoDir : List (String × String) := [("jan.md", "A"), ("june.md", "B")]

/-- A demo content directory where bad.md fails front-matter parsing. -/
def badDir : List (String × String) := [("good.md", "A"), ("bad.md", "Z")]

/-- An article carrying the tag Solana, as in the specification scenario. -/
def solanaArticle : ArticleSummary :=
  { slug := "sol", title := "Intro", author := "Ada Lovelace",
    date := "2025-01-01", description := "post",
    tags := some ["DeFi", "Solana"], category := none, image := none }

/-- Front matter whose image field is the empty string. -/
def demoImgData : FrontMatter :=
  { title := "T", author := "A", date := "2025-01-01", description := "D",
    tags := none, category := none, image := some "" }

theorem lexLt_asymm : ∀ x y : List Char, lexLt x y = true → lexLt y x = false := by
  intro x
  induction x with
  | nil =>
    intro y h
    cases y with
    | nil => simp [lexLt] at h
    | cons d ds => simp [lexLt]
  | cons c cs ih =>
    intro y h
    cases y with
    | nil => simp [lexLt] at h
    | cons d ds =>
      by_cases hcd : c = d
      · rw [lexLt, if_pos hcd] at h
        rw [lexLt, if_pos hcd.symm]
        exact ih ds h
      · have hdc : ¬ d = c := fun e => hcd e.symm
        rw [lexLt, if_neg hcd, decide_eq_true_eq] at h
        rw [lexLt, if_neg hdc, decide_eq_false_iff_not]
        exact lt_asymm h

theorem lexLt_trans :
    ∀ x y z : List Char, lexLt x y = true → lexLt y z = true → lexLt x z = true := by
  intro x
  induction x with
  | nil =>
    intro y z hxy hyz
    cases z with
    | nil => cases y <;> simp [lexLt] at hyz
    | cons e es => simp [lexLt]
  | cons c cs ih =>
    intro y z hxy hyz
    cases y with
    | nil => simp [lexLt] at hxy
    | cons d ds =>
      cases z with
      | nil => simp [lexLt] at hyz
      | cons e es =>
        by_cases hcd : c = d <;> by_cases hde : d = e
        · rw [lexLt, if_pos hcd] at hxy
          rw [lexLt, if_pos hde] at hyz
          rw [lexLt, if_pos (hcd.trans hde)]
          exact ih ds es hxy hyz
        · rw [lexLt, if_neg hde, decide_eq_true_eq] at hyz
          have hce : ¬ c = e := fun h => hde (hcd.symm.trans h)
          rw [lexLt, if_neg hce, decide_eq_true_eq]
          exact lt_of_le_of_lt (le_of_eq hcd) hyz
        · rw [lexLt, if_neg hcd, decide_eq_true_eq] at hxy
          have hce : ¬ c = e := fun h => hcd (h.trans hde.symm)
          rw [lexLt, if_neg hce, decide_eq_true_eq]
          exact lt_of_lt_of_eq hxy hde
        · rw [lexLt, if_neg hcd, decide_eq_true_eq] at hxy
          rw [lexLt, if_neg hde, decide_eq_true_eq] at hyz
          have hce : c < e := lt_trans hxy hyz
          rw [lexLt, if_neg (ne_of_lt hce), decide_eq_true_eq]
          exact hce

theorem lexLt_antisymm :
    ∀ x y : List Char, lexLt x y = false → lexLt y x = false → x = y := by
  intro x
  induction x with
  | nil =>
    intro y hxy _
    cases y with
    | nil => rfl
    | cons d ds => simp [lexLt] at hxy
  | cons c cs ih =>
    intro y hxy hyx
    cases y with
    | nil => simp [lexLt] at hyx
    | cons d ds =>
      by_cases hcd : c = d
      · rw [lexLt, if_pos hcd] at hxy
        rw [lexLt, if_pos hcd.symm] at hyx
        rw [hcd, ih ds hxy hyx]
      · have hdc : ¬ d = c := fun e => hcd e.symm
        rw [lexLt, if_neg hcd, decide_eq_false_iff_not] at hxy
        rw [lexLt, if_neg hdc, decide_eq_false_iff_not] at hyx
        rcases lt_or_gt_of_ne hcd with h | h
        · exact absurd h hxy
        · exact absurd h hyx

instance : IsTotal ArticleSummary byDateDesc := ⟨by
  intro a b
  unfold byDateDesc strLt
  cases h : lexLt a.date.toList b.date.toList
  · exact Or.inl rfl
  · exact Or.inr (lexLt_asymm _ _ h)⟩

instance : IsTrans ArticleSummary byDateDesc := ⟨by
  intro a b c hab hbc
  unfold byDateDesc strLt at hab hbc ⊢
  cases hac : lexLt a.date.toList c.date.toList
  · rfl
  · exfalso
    cases hcb : lexLt c.date.toList b.date.toList
    · have hbceq : b.date.toList = c.date.toList := lexLt_antisymm _ _ hbc hcb
      have hab' : lexLt a.date.toList c.date.toList = false := by
        rw [← hbceq]; exact hab
      exact Bool.false_ne_true (hab' ▸ hac)
    · have habt : lexLt a.date.toList b.date.toList = true := lexLt_trans _ _ _ hac hcb
      exact Bool.false_ne_true (hab ▸ habt)⟩

theorem containsSub_nil (l : List Char) : containsSub l [] = true := by
  cases l with
  | nil => rfl
  | cons c cs => simp [containsSub, startsWithList]

theorem includesIC_empty (s : String) : includesIC s "" = true := by
  unfold includesIC lowerChars
  have h : ("" : String).toList = [] := rfl
  simp only [h, List.map_nil]
  exact containsSub_nil _

theorem toList_inj {a b : String} (h : a.toList = b.toList) : a = b := by
  cases a
  cases b
  exact congrArg String.mk h

theorem isMdName_take {s : String} (h : isMdName s = true) :
    s.toList.reverse.take 3 = ['d', 'm', '.'] := by
  simpa [isMdName] using h

theorem stripMd_inj {a b : String} (ha : isMdName a = true) (hb : isMdName b = true)
    (h : stripMd a = stripMd b) : a = b := by
  simp only [stripMd, ha, hb, if_true] at h
  have h2 : (a.toList.reverse.drop 3).reverse = (b.toList.reverse.drop 3).reverse :=
    congrArg String.toList h
  have h3 : a.toList.reverse.drop 3 = b.toList.reverse.drop 3 := List.reverse_inj.mp h2
  have h4 : a.toList.reverse = b.toList.reverse := by
    rw [← List.take_append_drop 3 a.toList.reverse, ← List.take_append_drop 3 b.toList.reverse,
      isMdName_take ha, isMdName_take hb, h3]
  exact toList_inj (List.reverse_inj.mp h4)

theorem loadSummaries_ok_map_slug (matter : String → Except Unit MatterResult) :
    ∀ (fs : List (String × String)) (arts : List ArticleSummary),
      loadSummaries matter fs = .ok arts →
      arts.map ArticleSummary.slug = fs.map (fun f => stripMd f.1) := by
  intro fs
  induction fs with
  | nil =>
    intro arts h
    simp only [loadSummaries, Except.ok.injEq] at h
    subst h
    rfl
  | cons g gs ih =>
    intro arts h
    cases hm : matter g.2 with
    | error e => simp [loadSummaries, hm] at h
    | ok m =>
      cases hr : loadSummaries matter gs with
      | error e => simp [loadSummaries, hm, hr] at h
      | ok rest =>
        simp only [loadSummaries, hm, hr, Except.ok.injEq] at h
        subst h
        simp [mkSummary, ih rest hr]

theorem loadSummaries_error_of_mem (matter : String → Except Unit MatterResult) :
    ∀ (fs : List (String × String)) (f : String × String), f ∈ fs →
      matter f.2 = .error () → loadSummaries matter fs = .error () := by
  intro fs
  induction fs with
  | nil => intro f hf _; cases hf
  | cons g gs ih =>
    intro f hf he
    rcases List.mem_cons.mp hf with rfl | hf'
    · simp [loadSummaries, he]
    · cases hg : matter g.2 with
      | error e => simp [loadSummaries, hg]
      | ok m => simp [loadSummaries, hg, ih f hf' he]

theorem loadSummaries_mem (matter : String → Except Unit MatterResult) :
    ∀ (fs : List (String × String)) (arts : List ArticleSummary),
      loadSummaries matter fs = .ok arts →
      ∀ a ∈ arts, ∃ f ∈ fs, ∃ m, matter f.2 = .ok m ∧
        a = mkSummary (stripMd f.1) m.data := by
  intro fs
  induction fs with
  | nil =>
    intro arts h a ha
    simp only [loadSummaries, Except.ok.injEq] at h
    subst h
    cases ha
  | cons g gs ih =>
    intro arts h a ha
    cases hm : matter g.2 with
    | error e => simp [loadSummaries, hm] at h
    | ok m =>
      cases hr : loadSummaries matter gs with
      | error e => simp [loadSummaries, hm, hr] at h
      | ok rest =>
        simp only [loadSummaries, hm, hr, Except.ok.injEq] at h
        subst h
        rcases List.mem_cons.mp ha with rfl | ha'
        · exact ⟨g, List.mem_cons_self _ _, m, hm, rfl⟩
        · rcases ih rest hr a ha' with ⟨f, hf, m', hm', rfl⟩
          exact ⟨f, List.mem_cons_of_mem _ hf, m', hm', rfl⟩

theorem mem_dedupFirst (l : List String) (u : String) : u ∈ dedupFirst l ↔ u ∈ l := by
  induction l using dedupFirst.induct with
  | case1 => simp [dedupFirst]
  | case2 v vs ih =>
    by_cases h : u = v
    · subst h
      simp [dedupFirst]
    · simp [dedupFirst, ih, List.mem_filter, h]

theorem nodup_dedupFirst (l : List String) : (dedupFirst l).Nodup := by
  induction l using dedupFirst.induct with
  | case1 => simp [dedupFirst]
  | case2 v vs ih =>
    rw [dedupFirst]
    refine List.nodup_cons.mpr ⟨fun hmem => ?_, ih⟩
    rw [mem_dedupFirst] at hmem
    simp [List.mem_filter] at hmem

theorem filterPred_iff (a : ArticleSummary) (q tag cat : String) :
    (matchesSearch a q && matchesTag a tag && matchesCategory a cat) = true ↔
      matchesAmended a q tag cat := by
  unfold matchesSearch matchesTag matchesCategory matchesAmended tagsOf
  rcases hts : a.tags with _ | ts <;>
    by_cases htag : tag = "" <;>
      by_cases hcat : cat = "" <;>
        simp [hts, htag, hcat, List.any_eq_true, List.contains, List.elem_iff,
          or_assoc, and_assoc]

theorem bool_eq_decide {b : Bool} {P : Prop} [Decidable P] (h : b = true ↔ P) :
    b = decide P := by
  by_cases hp : P
  · rw [h.mpr hp, decide_eq_true hp]
  · have hb : b = false := by
      cases hbv : b
      · rfl
      · exact absurd (h.mp hbv) hp
    rw [hb, decide_eq_false hp]

/-- C1, counterexample: the claim says a non-empty tag selector that is an
All value imposes no tag constraint, so with the empty query and the
selector All Tags the article tagged Solana should be returned; the
ArticleList filter instead treats the literal string All Tags as an
ordinary tag and returns the empty list. -/
theorem C1_counterexample :
    filterArticles [solanaArticle] "" "All Tags" "" = [] ∧
    specC1Pred solanaArticle "" "All Tags" "" ∧
    solanaArticle ∈ [solanaArticle] := by
  decide

/-- C1, amended: the ArticleList filter returns exactly the subsequence of
articles whose title, description, or some tag contains the query as a
case-insensitive substring, whose tags contain the selected tag whenever
any non-empty tag selector is given (the literal All values included), and
whose category equals the selected category whenever any non-empty category
selector is given; in particular an article with tag Solana matches the
query solana. -/
theorem C1_filter_exact :
    (∀ (arts : List ArticleSummary) (q tag cat : String),
      filterArticles arts q tag cat =
        arts.filter (fun a => decide (matchesAmended a q tag cat))) ∧
    filterArticles [solanaArticle] "solana" "" "" = [solanaArticle] := by
  constructor
  · intro arts q tag cat
    unfold filterArticles
    exact List.filter_congr (fun a _ => bool_eq_decide (filterPred_iff a q tag cat))
  · decide

/-- C2, counterexample: the claim says a file whose front matter fails to
parse is skipped silently and the remaining summaries are still returned;
getAllArticles has no try/catch around the per-file parse, so the exception
propagates and the listing fails as a whole instead of returning the
summary of the parseable file. -/
theorem C2_counterexample :
    getAllArticles demoMatter (some badDir) = .error () ∧
    getAllArticles demoMatter (some badDir) ≠ .ok [mkSummary "good" demoData1] := by
  decide

/-- C2, amended: a front-matter parse failure in any .md file of the
content directory propagates out of getAllArticles, failing the whole
listing; no file is skipped. -/
theorem C2_parse_error_propagates (matter : String → Except Unit MatterResult)
    (files : List (String × String)) (f : String × String)
    (hf : f ∈ files) (hmd : isMdName f.1 = true) (he : matter f.2 = .error ()) :
    getAllArticles matter (some files) = .error () := by
  have h : loadSummaries matter (files.filter (fun g => isMdName g.1)) = .error () :=
    loadSummaries_error_of_mem matter _ f (List.mem_filter.mpr ⟨hf, hmd⟩) he
  simp [getAllArticles, h]

/-- C2, witness for the amended theorem at a concrete directory. -/
theorem C2_parse_error_witness :
    getAllArticles demoMatter (some badDir) = .error () :=
  C2_parse_error_propagates demoMatter badDir ("bad.md", "Z")
    (by decide) (by decide) (by decide)

/-- C3: whatever the content directory and the front-matter parser, a
successful getAllArticles listing is sorted by date descending: every
adjacent pair satisfies byDateDesc, that is the later date string is never
lexicographically below the earlier one. -/
theorem C3_sorted_by_date_desc (matter : String → Except Unit MatterResult)
    (dir : Option (List (String × String))) (l : List ArticleSummary)
    (h : getAllArticles matter dir = .ok l) : l.Chain' byDateDesc := by
  cases dir with
  | none =>
    simp only [getAllArticles, Except.ok.injEq] at h
    subst h
    exact List.chain'_nil
  | some files =>
    cases hr : loadSummaries matter (files.filter (fun g => isMdName g.1)) with
    | error e => simp [getAllArticles, hr] at h
    | ok arts =>
      simp only [getAllArticles, hr, Except.ok.injEq] at h
      subst h
      exact List.Pairwise.chain' (List.sorted_insertionSort byDateDesc arts)

/-- C3, witness: the two-file demo directory dated 2025-01-01 and
2025-06-01 loads as the June article followed by the January article. -/
theorem C3_sorted_witness :
    List.Chain' byDateDesc [mkSummary "june" demoData2, mkSummary "jan" demoData1] :=
  C3_sorted_by_date_desc demoMatter (some demoDir) _ (by decide)

/-- C4: getArticleBySlug returns none both when no file named slug.md
exists and when the front-matter parse or the markdown rendering of the
file throws; every failure cause yields the same not-found value, and the
function is total, so no exception reaches the caller. -/
theorem C4_not_found_or_error_is_none :
    (∀ (matter : String → Except Unit MatterResult)
      (render : String → Except Unit String)
      (dir : Option (List (String × String))) (slug : String),
      lookupFile dir (slug ++ ".md") = none →
      getArticleBySlug matter render dir slug = none) ∧
    (∀ (matter : String → Except Unit MatterResult)
      (render : String → Except Unit String)
      (dir : Option (List (String × String))) (slug c : String),
      lookupFile dir (slug ++ ".md") = some c → matter c = .error () →
      getArticleBySlug matter render dir slug = none) ∧
    (∀ (matter : String → Except Unit MatterResult)
      (render : String → Except Unit String)
      (dir : Option (List (String × String))) (slug c : String)
      (m : MatterResult),
      lookupFile dir (slug ++ ".md") = some c → matter c = .ok m →
      render m.content = .error () →
      getArticleBySlug matter render dir slug = none) := by
  refine ⟨?_, ?_, ?_⟩
  · intro matter render dir slug h
    simp [getArticleBySlug, h]
  · intro matter render dir slug c h hm
    simp [getArticleBySlug, h, hm]
  · intro matter render dir slug c m h hm hren
    simp [getArticleBySlug, h, hm, hren]

/-- C4, witness: a slug with no matching file yields none. -/
theorem C4_witness :
    getArticleBySlug demoMatter demoRender none "ghost" = none :=
  C4_not_found_or_error_is_none.1 demoMatter demoRender none "ghost" rfl

/-- C5: a missing content directory makes getAllArticles return the empty
list rather than an error. -/
theorem C5_missing_directory_empty (matter : String → Except Unit MatterResult) :
    getAllArticles matter none = .ok [] := rfl

/-- C6: a successful listing carries exactly one summary per file whose
name ends in .md and none for the other files: its slugs are a permutation
of the .md file names with the extension stripped, and when the file names
of the directory are pairwise distinct so are the slugs. -/
theorem C6_slug_per_md_file (matter : String → Except Unit MatterResult)
    (files : List (String × String)) (l : List ArticleSummary)
    (h : getAllArticles matter (some files) = .ok l) :
    (l.map ArticleSummary.slug).Perm
      ((files.filter (fun f => isMdName f.1)).map (fun f => stripMd f.1)) ∧
    ((files.map Prod.fst).Nodup → (l.map ArticleSummary.slug).Nodup) := by
  cases hr : loadSummaries matter (files.filter (fun g => isMdName g.1)) with
  | error e => simp [getAllArticles, hr] at h
  | ok arts =>
    simp only [getAllArticles, hr, Except.ok.injEq] at h
    subst h
    have hperm : (((List.insertionSort byDateDesc arts).map ArticleSummary.slug).Perm
        (arts.map ArticleSummary.slug)) :=
      (List.perm_insertionSort byDateDesc arts).map _
    have hmap := loadSummaries_ok_map_slug matter _ arts hr
    have hP : (((List.insertionSort byDateDesc arts).map ArticleSummary.slug).Perm
        ((files.filter (fun f => isMdName f.1)).map (fun f => stripMd f.1))) :=
      hmap ▸ hperm
    refine ⟨hP, fun hnd => ?_⟩
    have hsub : (((files.filter (fun f => isMdName f.1)).map Prod.fst).Sublist
        (files.map Prod.fst)) :=
      (List.filter_sublist files).map Prod.fst
    have hnd2 : ((files.filter (fun f => isMdName f.1)).map Prod.fst).Nodup :=
      hnd.sublist hsub
    have hmd : ∀ x ∈ (files.filter (fun f => isMdName f.1)).map Prod.fst,
        isMdName x = true := by
      intro x hx
      rcases List.mem_map.mp hx with ⟨f, hf, rfl⟩
      exact (List.mem_filter.mp hf).2
    have hnd3 : ((((files.filter (fun f => isMdName f.1)).map Prod.fst).map stripMd).Nodup) :=
      hnd2.map_on (fun x hx y hy hxy => stripMd_inj (hmd x hx) (hmd y hy) hxy)
    have heq : (((files.filter (fun f => isMdName f.1)).map Prod.fst).map stripMd)
        = (files.filter (fun f => isMdName f.1)).map (fun f => stripMd f.1) := by
      rw [List.map_map]
      rfl
    exact hP.nodup_iff.mpr (heq ▸ hnd3)

/-- C6, witness for the demo directory: the slugs june and jan are a
permutation of the stripped .md names and are pairwise distinct. -/
theorem C6_witness :
    (([mkSummary "june" demoData2, mkSummary "jan" demoData1].map ArticleSummary.slug).Perm
      ((demoDir.filter (fun f => isMdName f.1)).map (fun f => stripMd f.1))) ∧
    ((demoDir.map Prod.fst).Nodup →
      ([mkSummary "june" demoData2, mkSummary "jan" demoData1].map
        ArticleSummary.slug).Nodup) :=
  C6_slug_per_md_file demoMatter demoDir _ (by decide)

/-- C7: the empty query with the empty (that is, All) tag and category
selectors leaves any article list unchanged, same articles in the same
order. -/
theorem C7_empty_filter_identity (arts : List ArticleSummary) :
    filterArticles arts "" "" "" = arts := by
  unfold filterArticles
  apply List.filter_eq_self.mpr
  intro a _
  simp [matchesSearch, matchesTag, matchesCategory, includesIC_empty]

/-- C8: getArticleBySlug is a pure function of the content of the file
slug.md (and of the parser and renderer): two invocations that see the
same, unchanged file content produce identical results, rendered HTML
included. -/
theorem C8_render_deterministic (matter : String → Except Unit MatterResult)
    (render : String → Except Unit String)
    (dirA dirB : Option (List (String × String))) (slug : String)
    (h : lookupFile dirA (slug ++ ".md") = lookupFile dirB (slug ++ ".md")) :
    getArticleBySlug matter render dirA slug =
      getArticleBySlug matter render dirB slug := by
  unfold getArticleBySlug
  rw [h]

/-- C8, witness: two directories holding a.md with the same content render
the slug a identically. -/
theorem C8_witness :
    getArticleBySlug demoMatter demoRender (some [("a.md", "A")]) "a" =
      getArticleBySlug demoMatter demoRender (some [("x.md", "B"), ("a.md", "A")]) "a" :=
  C8_render_deterministic demoMatter demoRender _ _ "a" (by decide)

/-- C9: the sitemap consists of the home page, one entry per article at
baseUrl/article/slug, and the author pages deduplicated by URL: these are
pairwise distinct and there is an entry exactly for each author URL
(lowercased, whitespace runs hyphenated) occurring among the articles. -/
theorem C9_sitemap_entries (arts : List ArticleSummary) :
    sitemapUrls arts =
      baseUrl :: (arts.map articleUrl ++ dedupFirst (arts.map authorUrl)) ∧
    (∀ a ∈ arts, articleUrl a ∈ sitemapUrls arts) ∧
    (dedupFirst (arts.map authorUrl)).Nodup ∧
    (∀ u, u ∈ dedupFirst (arts.map authorUrl) ↔ ∃ a ∈ arts, u = authorUrl a) := by
  refine ⟨rfl, ?_, nodup_dedupFirst _, ?_⟩
  · intro a ha
    unfold sitemapUrls
    refine List.mem_append.mpr (Or.inl ?_)
    refine List.mem_append.mpr (Or.inr ?_)
    exact List.mem_map_of_mem _ ha
  · intro u
    rw [mem_dedupFirst, List.mem_map]
    constructor
    · rintro ⟨a, ha, rfl⟩
      exact ⟨a, ha, rfl⟩
    · rintro ⟨a, ha, rfl⟩
      exact ⟨a, ha, rfl⟩

/-- C9, witness: the January article page appears in the sitemap of the
two demo articles. -/
theorem C9_witness :
    articleUrl (mkSummary "jan" demoData1) ∈
      sitemapUrls [mkSummary "jan" demoData1, mkSummary "june" demoData2] :=
  (C9_sitemap_entries _).2.1 _ (by decide)

/-- C10: a falsy image field (absent or the empty string) in the front
matter produces a record with no image: in the summary record of
getAllArticles, in the article record of getArticleBySlug, and end to end
through both functions whenever the parser only yields falsy images. -/
theorem C10_falsy_image_absent :
    (∀ (slug : String) (d : FrontMatter), d.image = none ∨ d.image = some "" →
      (mkSummary slug d).image = none) ∧
    (∀ (slug : String) (m : MatterResult) (html : String),
      m.data.image = none ∨ m.data.image = some "" →
      (mkArticle slug m html).image = none) ∧
    (∀ (matter : String → Except Unit MatterResult)
      (render : String → Except Unit String)
      (dir : Option (List (String × String))) (slug : String) (a : Article),
      getArticleBySlug matter render dir slug = some a →
      (∀ c m, matter c = .ok m → m.data.image = none ∨ m.data.image = some "") →
      a.image = none) ∧
    (∀ (matter : String → Except Unit MatterResult)
      (files : List (String × String)) (l : List ArticleSummary),
      getAllArticles matter (some files) = .ok l →
      (∀ c m, matter c = .ok m → m.data.image = none ∨ m.data.image = some "") →
      ∀ a ∈ l, a.image = none) := by
  have himg : ∀ v : Option String, v = none ∨ v = some "" → jsOrUndefined v = none := by
    rintro v (rfl | rfl) <;> simp [jsOrUndefined]
  refine ⟨?_, ?_, ?_, ?_⟩
  · intro slug d hd
    exact himg _ hd
  · intro slug m html hm
    exact himg _ hm
  · intro matter render dir slug a h hall
    cases hl : lookupFile dir (slug ++ ".md") with
    | none => simp [getArticleBySlug, hl] at h
    | some contents =>
      cases hm : matter contents with
      | error e => simp [getArticleBySlug, hl, hm] at h
      | ok m =>
        cases hren : render m.content with
        | error e => simp [getArticleBySlug, hl, hm, hren] at h
        | ok html =>
          simp only [getArticleBySlug, hl, hm, hren, Option.some.injEq] at h
          subst h
          exact himg _ (hall contents m hm)
  · intro matter files l h hall a ha
    cases hr : loadSummaries matter (files.filter (fun g => isMdName g.1)) with
    | error e => simp [getAllArticles, hr] at h
    | ok arts =>
      simp only [getAllArticles, hr, Except.ok.injEq] at h
      subst h
      have ha' : a ∈ arts :=
        (List.perm_insertionSort byDateDesc arts).mem_iff.mp ha
      rcases loadSummaries_mem matter _ arts hr a ha' with ⟨f, hf, m, hm, rfl⟩
      exact himg _ (hall f.2 m hm)

/-- C10, witness: an empty-string image field yields an absent image in
both record shapes. -/
theorem C10_witness :
    (mkSummary "s" demoImgData).image = none ∧
    (mkArticle "s" { data := demoImgData, content := "b" } "<p>b</p>").image = none :=
  ⟨C10_falsy_image_absent.1 "s" demoImgData (Or.inr rfl),
    C10_falsy_image_absent.2.1 "s" { data := demoImgData, content := "b" }
      "<p>b</p>" (Or.inr rfl)⟩

end ZendfiBlog
